import Mathlib

/-!
Shallow embedding of the relational-database access core
(`src/database/postgresql/src/index.ts`): the positional-placeholder query
builder, the pooled-connection query gateway with structured failure results,
the explicit transaction lifecycle, the schema-synchronization script and the
per-table Model operations.  JavaScript objects are modelled as
insertion-ordered association lists, JavaScript runtime values as the `Value`
type, and the asynchronous driver as an explicit outcome parameter.
-/

/-- A JavaScript runtime value as it appears in query parameters and column
defaults: a string, a number, a boolean or null. -/
inductive Value where
  | vstr (s : String)
  | vnum (n : Int)
  | vbool (b : Bool)
  | vnull
deriving DecidableEq

/-- A JavaScript object with string keys in insertion order. -/
abbrev Obj := List (String × Value)

/-- The loop index sequence of a JavaScript `for` loop running from `c`
for `n` iterations: `[c, c+1, ..., c+n-1]`. -/
def idxRange : Nat → Nat → List Nat
  | _, 0 => []
  | c, Nat.succ n => c :: idxRange (c + 1) n

/-- The assignment-mode loop of `Placeholder.generate`: for each key in
insertion order it emits `key=$(counter+1)` and increments the counter.
Returns the emitted parts and the final counter. -/
def genAssign : Nat → List String → List String × Nat
  | c, [] => ([], c)
  | c, k :: ks =>
    let r := genAssign (c + 1) ks
    ((k ++ "=$" ++ toString (c + 1)) :: r.1, r.2)

/-- The `Placeholder` class state: a single counter starting at 0. -/
structure Placeholder where
  counter : Nat
deriving DecidableEq

/-- The overloaded argument of `Placeholder.generate`: a number (positional
mode) or an object of fields (assignment mode), dispatched on `typeof`. -/
inductive GenParam where
  | count (n : Nat)
  | fields (obj : Obj)

/-- `Placeholder.generate(param, delim)`.  Positional mode pushes `$(i+1)` for
`i = counter .. counter+count-1` and leaves the counter untouched; assignment
mode runs `genAssign` over the keys of the object, advancing the counter. -/
def Placeholder.generate (p : Placeholder) (param : GenParam) (delim : String) :
    String × Placeholder :=
  match param with
  | GenParam.count n =>
    (String.intercalate delim ((idxRange p.counter n).map (fun i => "$" ++ toString (i + 1))), p)
  | GenParam.fields obj =>
    let r := genAssign p.counter (obj.map Prod.fst)
    (String.intercalate delim r.1, ⟨r.2⟩)

/-- `Placeholder.values(objs)`: flattens the own values of each argument in
order, skipping entries that are `undefined` (modelled as `none`). -/
def phValues (objs : List (Option Obj)) : List Value :=
  objs.flatMap (fun o =>
    match o with
    | none => []
    | some ob => ob.map Prod.snd)

/-- A sequence of assignment-mode `generate` calls on one `Placeholder`
instance, returning the concatenated emitted placeholder indices and the
final instance state. -/
def runCalls : Placeholder → List Obj → List Nat × Placeholder
  | p, [] => ([], p)
  | p, o :: os =>
    let q := (p.generate (GenParam.fields o) ", ").2
    let r := runCalls q os
    (idxRange (p.counter + 1) o.length ++ r.1, r.2)

theorem idxRange_length : ∀ (n c : Nat), (idxRange c n).length = n := by
  intro n
  induction n with
  | zero => intro c; rfl
  | succ m ih => intro c; simp [idxRange, ih]

theorem idxRange_map_shift {α : Type} (f : Nat → α) :
    ∀ (n c : Nat), (idxRange c n).map (fun i => f (i + 1)) = (idxRange (c + 1) n).map f := by
  intro n
  induction n with
  | zero => intro c; rfl
  | succ m ih => intro c; simp [idxRange, ih]

theorem idxRange_append :
    ∀ (m n a : Nat), idxRange a m ++ idxRange (a + m) n = idxRange a (m + n) := by
  intro m
  induction m with
  | zero => intro n a; simp [idxRange]
  | succ k ih =>
    intro n a
    simp only [idxRange, List.cons_append, Nat.succ_add]
    have h2 : a + (k + 1) = (a + 1) + k := by omega
    rw [h2, ih n (a + 1)]

theorem genAssign_eq :
    ∀ (ks : List String) (c : Nat),
      genAssign c ks =
        (List.zipWith (fun k i => k ++ "=$" ++ toString i) ks (idxRange (c + 1) ks.length),
         c + ks.length) := by
  intro ks
  induction ks with
  | nil => intro c; simp [genAssign, idxRange]
  | cons k rest ih =>
    intro c
    simp [genAssign, idxRange, ih (c + 1)]
    omega

theorem generate_fields_counter (c : Nat) (obj : Obj) (d : String) :
    ((Placeholder.mk c).generate (GenParam.fields obj) d).2 = ⟨c + obj.length⟩ := by
  simp [Placeholder.generate, genAssign_eq]

theorem runCalls_eq :
    ∀ (objs : List Obj) (c : Nat),
      runCalls ⟨c⟩ objs =
        (idxRange (c + 1) ((objs.map List.length).sum), ⟨c + (objs.map List.length).sum⟩) := by
  intro objs
  induction objs with
  | nil => intro c; simp [runCalls, idxRange]
  | cons o os ih =>
    intro c
    have hq : ((Placeholder.mk c).generate (GenParam.fields o) ", ").2 = ⟨c + o.length⟩ :=
      generate_fields_counter c o ", "
    have happ := idxRange_append o.length ((os.map List.length).sum) (c + 1)
    simp [runCalls, hq, ih (c + o.length)]
    constructor
    · have h1 : c + o.length + 1 = c + 1 + o.length := by omega
      rw [h1, happ]
    · omega

/-- Claim C3: positional-mode `generate(count, delim)` emits exactly `count`
placeholders `$k` for `k = counter+1 .. counter+count` joined by `delim` and
leaves the counter unchanged; assignment-mode `generate(obj, delim)` emits
`key=$k` per key in insertion order and advances the counter by the number of
keys; a sequence of assignment-mode calls on a fresh instance emits indices
that are exactly the contiguous strictly-increasing run starting at 1. -/
theorem placeholder_generate_spec (c n : Nat) (d : String) (obj : Obj) (objs : List Obj) :
    ((Placeholder.mk c).generate (GenParam.count n) d
        = (String.intercalate d ((idxRange (c + 1) n).map (fun k => "$" ++ toString k)), ⟨c⟩))
    ∧ (((Placeholder.mk c).generate (GenParam.fields obj) d).2.counter = c + obj.length)
    ∧ (((Placeholder.mk c).generate (GenParam.fields obj) d).1
        = String.intercalate d
            (List.zipWith (fun k i => k ++ "=$" ++ toString i)
              (obj.map Prod.fst) (idxRange (c + 1) obj.length)))
    ∧ ((runCalls ⟨0⟩ objs).1 = idxRange 1 ((objs.map List.length).sum))
    ∧ ((runCalls ⟨0⟩ objs).2.counter = (objs.map List.length).sum) := by
  refine ⟨?_, ?_, ?_, ?_, ?_⟩
  · simp [Placeholder.generate, idxRange_map_shift (fun k => "$" ++ toString k) n c]
  · simp [Placeholder.generate, genAssign_eq]
  · simp [Placeholder.generate, genAssign_eq]
  · simp [runCalls_eq]
  · simp [runCalls_eq]

/-- Claim C8: `values([objA, objB])` flattens own property values object by
object in argument order (key insertion order within an object), skipping
`undefined` arguments entirely; its length equals the total number of keys of
the non-`undefined` arguments, which matches the number of assignment-mode
placeholders emitted by the corresponding `generate` calls on those objects. -/
theorem values_flatten_spec (objA : Obj) (objB : Option Obj) :
    (phValues [some objA, objB]
        = objA.map Prod.snd ++ (match objB with | none => [] | some b => b.map Prod.snd))
    ∧ ((phValues [some objA, objB]).length
        = objA.length + (match objB with | none => 0 | some b => b.length))
    ∧ ((runCalls ⟨0⟩ (([some objA, objB].filterMap id))).1.length
        = (phValues [some objA, objB]).length) := by
  refine ⟨?_, ?_, ?_⟩
  · cases objB <;> simp [phValues]
  · cases objB <;> simp [phValues]
  · cases objB <;> simp [phValues, runCalls_eq, idxRange_length]

/-- A query result as a runtime record.  A driver success (`pg.QueryResult`)
carries `rows` and `rowCount` and leaves the four failure-only fields
undefined; a `DbErrorResult` defines `code`, `query`, `values` and `message`
(and has no rows).  `none` models an undefined field. -/
structure DbResp where
  code : Option String
  query : Option String
  values : Option (List Value)
  message : Option String
  rows : List Obj
  rowCount : Nat
deriving DecidableEq

/-- The key list scanned by `isSuccess`. -/
def failKeys : List String := ["code", "query", "values", "message"]

/-- Whether `result[key] !== undefined` for one of the four scanned keys. -/
def definedAt (r : DbResp) (k : String) : Bool :=
  if k == "code" then r.code.isSome
  else if k == "query" then r.query.isSome
  else if k == "values" then r.values.isSome
  else if k == "message" then r.message.isSome
  else false

/-- `Pool.isSuccess(response)`: counts how many of the four failure-only keys
are defined and declares success when fewer than two are. -/
def isSuccess (r : DbResp) : Bool :=
  (failKeys.foldl (fun count key => if definedAt r key then count + 1 else count) 0) < 2

/-- Number of defined failure-only fields, stated directly on the record
fields (the spec reading of the discriminator). -/
def numDefined (r : DbResp) : Nat :=
  (if r.code.isSome then 1 else 0) + (if r.query.isSome then 1 else 0)
    + (if r.values.isSome then 1 else 0) + (if r.message.isSome then 1 else 0)

/-- Claim C4: `isSuccess` classifies a result as a Failure exactly when at
least two of the four failure-only fields (code, query, values, message) are
simultaneously defined; with fewer than two defined it returns `true`. -/
theorem isSuccess_iff_fewer_than_two_defined (r : DbResp) :
    isSuccess r = true ↔ numDefined r < 2 := by
  rcases r with ⟨code, query, values, message, rows, rowCount⟩
  cases code <;> cases query <;> cases values <;> cases message <;>
    simp [isSuccess, failKeys, definedAt, numDefined]

/-- The `Transaction` class state: an optional owned pooled connection
(connections are modelled by numeric ids) and the `rollbackOnError` flag. -/
structure Transaction where
  conn : Option Nat
  rollbackOnError : Bool
deriving DecidableEq

/-- Observable effect of one `Transaction` method call: the new instance
state, the SQL statements issued on the owned connection, and the
connections released back to the pool. -/
structure TxnStep where
  txn : Transaction
  issued : List String
  released : List Nat
deriving DecidableEq

/-- `Transaction.begin(conn)`: a logged no-op when a connection is already
established; otherwise stores the connection and issues the statement
`COMMIT;` (the opening statement found in the source). -/
def Transaction.begin (t : Transaction) (c : Nat) : TxnStep :=
  if t.conn.isSome then
    { txn := t, issued := [], released := [] }
  else
    { txn := { t with conn := some c }, issued := ["COMMIT;"], released := [] }

/-- `Transaction.commit()`: a logged no-op when no connection is established;
otherwise issues `COMMIT;`, then releases the connection and clears the
reference (`end`). -/
def Transaction.commit (t : Transaction) : TxnStep :=
  match t.conn with
  | none => { txn := t, issued := [], released := [] }
  | some c => { txn := { t with conn := none }, issued := ["COMMIT;"], released := [c] }

/-- `Transaction.rollback()`: a logged no-op when no connection is
established; otherwise issues `ROLLBACK`, then releases the connection and
clears the reference (`end`). -/
def Transaction.rollback (t : Transaction) : TxnStep :=
  match t.conn with
  | none => { txn := t, issued := [], released := [] }
  | some c => { txn := { t with conn := none }, issued := ["ROLLBACK"], released := [c] }

/-- Claim C2: a `Transaction` holds at most one live connection.  `begin` on
an already-bound instance leaves the instance (hence the connection)
unchanged and issues nothing, and after `commit` or `rollback` on a bound
instance the connection has been released back to the pool and the
connection reference is `null`. -/
theorem transaction_exclusivity (t : Transaction) (c c0 : Nat) :
    (t.conn.isSome = true → (t.begin c).txn = t ∧ (t.begin c).issued = [])
    ∧ (t.conn = some c0 →
        (t.commit.txn.conn = none ∧ t.commit.released = [c0])
        ∧ (t.rollback.txn.conn = none ∧ t.rollback.released = [c0])) := by
  constructor
  · intro h
    simp [Transaction.begin, h]
  · intro h
    simp [Transaction.commit, Transaction.rollback, h]

/-- Witness for `transaction_exclusivity` at a concrete bound transaction. -/
theorem transaction_exclusivity_witness :
    ((Transaction.mk (some 5) false).begin 7).txn = Transaction.mk (some 5) false
    ∧ ((Transaction.mk (some 5) false).begin 7).issued = []
    ∧ (Transaction.mk (some 5) false).commit.txn.conn = none
    ∧ (Transaction.mk (some 5) false).commit.released = [5]
    ∧ (Transaction.mk (some 5) false).rollback.txn.conn = none
    ∧ (Transaction.mk (some 5) false).rollback.released = [5] := by
  have h := transaction_exclusivity (Transaction.mk (some 5) false) 7 5
  have h1 := h.1 (by decide)
  have h2 := h.2 (by decide)
  exact ⟨h1.1, h1.2, h2.1.1, h2.1.2, h2.2.1, h2.2.2⟩

/-- Claim C7: `begin(conn)` on a transaction whose connection is not yet set
stores the connection and then issues the SQL text `COMMIT;` as the opening
statement (a commit-class statement, not `BEGIN`/`START TRANSACTION`). -/
theorem begin_issues_commit (t : Transaction) (c : Nat) :
    t.conn = none →
      t.begin c =
        { txn := { conn := some c, rollbackOnError := t.rollbackOnError },
          issued := ["COMMIT;"], released := [] } := by
  intro h
  simp [Transaction.begin, h]

/-- Witness for `begin_issues_commit` at a concrete unbound transaction. -/
theorem begin_issues_commit_witness :
    (Transaction.mk none true).begin 3 =
      { txn := { conn := some 3, rollbackOnError := true },
        issued := ["COMMIT;"], released := [] } :=
  begin_issues_commit (Transaction.mk none true) 3 (by decide)

/-- Outcome of the underlying driver call made by `Pool.query`: a resolved
`pg.QueryResult` or a thrown error carrying an optional driver code and a
message. -/
inductive DriverOutcome where
  | ok (rows : List Obj) (rowCount : Nat)
  | err (code : Option String) (msg : String)

/-- Ordered observable events of one `Pool.query` call. -/
inductive QEvent where
  | rolledBack
  | returned
deriving DecidableEq

/-- A driver success as a `DbResp` record: no failure-only field is
defined. -/
def successResp (rows : List Obj) (rowCount : Nat) : DbResp :=
  { code := none, query := none, values := none, message := none,
    rows := rows, rowCount := rowCount }

/-- The `DbErrorResult` built by `queryHandler` in its catch branch. -/
def failureResp (query : String) (values : List Value) (code : Option String)
    (msg : String) : DbResp :=
  { code := some (code.getD "ER_INTERNAL_ERROR"), query := some query,
    values := some values, message := some msg, rows := [], rowCount := 0 }

/-- Observable effect of one `Pool.query` call: the returned result, the
transaction state after the call (`none` when no transaction was supplied)
and the ordered event trace. -/
structure QueryOutcome where
  result : DbResp
  txnAfter : Option Transaction
  rollbackInvoked : Bool
  trace : List QEvent
deriving DecidableEq

/-- `Pool.query(query, options)` run against an explicit driver outcome.
The try-handler first binds a freshly acquired connection to a supplied
transaction that has none yet (via `begin`); on a thrown driver error the
error hook runs first — invoking `rollback()` on the supplied transaction
exactly when its `rollbackOnError` flag is set — and only then is the
failure record built and returned. -/
def poolQuery (query : String) (values : List Value) (topt : Option Transaction)
    (freshConn : Nat) (outcome : DriverOutcome) : QueryOutcome :=
  let began : Option Transaction :=
    topt.map (fun t => if t.conn.isSome then t else (t.begin freshConn).txn)
  match outcome with
  | DriverOutcome.ok rows rc =>
    { result := successResp rows rc, txnAfter := began,
      rollbackInvoked := false, trace := [QEvent.returned] }
  | DriverOutcome.err code msg =>
    let doRollback := match topt with
      | some t => t.rollbackOnError
      | none => false
    { result := failureResp query values code msg,
      txnAfter := if doRollback then began.map (fun t => t.rollback.txn) else began,
      rollbackInvoked := doRollback,
      trace := if doRollback then [QEvent.rolledBack, QEvent.returned] else [QEvent.returned] }

/-- Claim C5: when a query executed with a supplied transaction whose
`rollbackOnError` flag is true fails at the driver, `rollback()` is invoked
automatically and strictly before the Failure value is returned; when the
flag is false or no transaction is supplied, the failure path triggers no
rollback.  (Driver successes never trigger a rollback.) -/
theorem query_rollback_on_error (q : String) (vs : List Value)
    (topt : Option Transaction) (fresh : Nat) (code : Option String) (msg : String)
    (rows : List Obj) (rc : Nat) :
    ((poolQuery q vs topt fresh (DriverOutcome.err code msg)).rollbackInvoked
        = (match topt with | some t => t.rollbackOnError | none => false))
    ∧ ((poolQuery q vs topt fresh (DriverOutcome.err code msg)).result
        = failureResp q vs code msg)
    ∧ (isSuccess (poolQuery q vs topt fresh (DriverOutcome.err code msg)).result = false)
    ∧ ((poolQuery q vs topt fresh (DriverOutcome.err code msg)).trace
        = if (poolQuery q vs topt fresh (DriverOutcome.err code msg)).rollbackInvoked
          then [QEvent.rolledBack, QEvent.returned] else [QEvent.returned])
    ∧ ((poolQuery q vs topt fresh (DriverOutcome.ok rows rc)).rollbackInvoked = false) := by
  refine ⟨rfl, rfl, ?_, rfl, rfl⟩
  simp [poolQuery, failureResp, isSuccess, failKeys, definedAt]

/-- The five statement classes of the schema script. -/
inductive QueryType where
  | create
  | drop
  | drop_constraint
  | schema
  | alter
deriving DecidableEq

/-- Rank of a statement class in the fixed execution sequence of
`sync({alter:true})`. -/
def rank : QueryType → Nat
  | QueryType.drop_constraint => 0
  | QueryType.drop => 1
  | QueryType.schema => 2
  | QueryType.create => 3
  | QueryType.alter => 4

/-- The fixed bucket sequence iterated by `sync({alter:true})`. -/
def sequenceOrder : List QueryType :=
  [QueryType.drop_constraint, QueryType.drop, QueryType.schema,
   QueryType.create, QueryType.alter]

/-- One statement-class map of the script folder: schema names in insertion
order, each with its ordered statement list. -/
abbrev Bucket := List (String × List String)

/-- `array.push` on the entry of one schema name (present keys are unique in
every reachable script; an absent key leaves the map unchanged, where the
source would fault). -/
def entryPush (b : Bucket) (nm : String) (q : String) : Bucket :=
  b.map (fun p => if p.1 == nm then (p.1, p.2 ++ [q]) else p)

/-- The `Script` class state: the five statement-class maps of `folder` and
the current schema name (`this.schema`, initially the empty string). -/
structure Script where
  create : Bucket
  drop : Bucket
  drop_constraint : Bucket
  schema : Bucket
  alter : Bucket
  current : String

/-- A fresh `Script` as built by its constructor. -/
def Script.empty : Script :=
  { create := [], drop := [], drop_constraint := [], schema := [], alter := [],
    current := "" }

/-- Bucket map of one statement class. -/
def Script.folderGet (s : Script) : QueryType → Bucket
  | QueryType.create => s.create
  | QueryType.drop => s.drop
  | QueryType.drop_constraint => s.drop_constraint
  | QueryType.schema => s.schema
  | QueryType.alter => s.alter

/-- `Script.addSchema(schemaName)`: adds the schema name to all five maps
atomically, then seeds the `schema` bucket with the drop/create-schema
statements. -/
def Script.addSchema (s : Script) (nm : String) : Script :=
  let s1 : Script :=
    { s with
      create := s.create ++ [(nm, [])], drop := s.drop ++ [(nm, [])],
      drop_constraint := s.drop_constraint ++ [(nm, [])],
      schema := s.schema ++ [(nm, [])], alter := s.alter ++ [(nm, [])] }
  { s1 with
    schema :=
      entryPush (entryPush s1.schema nm ("DROP SCHEMA IF EXISTS " ++ nm ++ ";"))
        nm ("CREATE SCHEMA IF NOT EXISTS " ++ nm ++ ";") }

/-- `Script.hasSchema(schemaName)`: the name is present in every one of the
five maps. -/
def Script.hasSchema (s : Script) (nm : String) : Bool :=
  (sequenceOrder.all (fun t => (s.folderGet t).any (fun p => p.1 == nm)))

/-- `Script.setSchema(schemaName)`: adds the schema if absent, then makes it
current. -/
def Script.setSchema (s : Script) (nm : String) : Script :=
  if s.hasSchema nm then { s with current := nm }
  else { s.addSchema nm with current := nm }

/-- `Script.push(type, query)`: appends the query to the current schema entry
of the given statement-class map. -/
def Script.push (s : Script) (t : QueryType) (q : String) : Script :=
  match t with
  | QueryType.create => { s with create := entryPush s.create s.current q }
  | QueryType.drop => { s with drop := entryPush s.drop s.current q }
  | QueryType.drop_constraint =>
    { s with drop_constraint := entryPush s.drop_constraint s.current q }
  | QueryType.schema => { s with schema := entryPush s.schema s.current q }
  | QueryType.alter => { s with alter := entryPush s.alter s.current q }

/-- The statement sequence executed by the `sync({alter:true})` triple loop:
bucket classes in `sequenceOrder`, schema entries of each class in insertion
order, statements of each entry in registration order. -/
def allAlterStatements (s : Script) : List String :=
  sequenceOrder.flatMap (fun t => (s.folderGet t).flatMap (fun p => p.2))

/-- The same statement sequence with each statement tagged by its statement
class and schema name. -/
def taggedAlterStatements (s : Script) : List (QueryType × String × String) :=
  sequenceOrder.flatMap
    (fun t => (s.folderGet t).flatMap (fun p => p.2.map (fun q => (t, p.1, q))))

/-- The tagged statements contributed by one statement-class map. -/
def seg (t : QueryType) (b : Bucket) : List (QueryType × String × String) :=
  b.flatMap (fun p => p.2.map (fun q => (t, p.1, q)))

theorem tagged_eq (s : Script) :
    taggedAlterStatements s =
      seg QueryType.drop_constraint s.drop_constraint ++ seg QueryType.drop s.drop
        ++ seg QueryType.schema s.schema ++ seg QueryType.create s.create
        ++ seg QueryType.alter s.alter := by
  simp [taggedAlterStatements, sequenceOrder, seg, Script.folderGet]

theorem mem_seg {t : QueryType} {b : Bucket} {x : QueryType × String × String}
    (hx : x ∈ seg t b) : x.1 = t := by
  simp only [seg, List.mem_flatMap, List.mem_map] at hx
  obtain ⟨p, _, q, _, hq⟩ := hx
  rw [← hq]

theorem seg_pairwise (t : QueryType) (b : Bucket) :
    (seg t b).Pairwise (fun a c => rank a.1 ≤ rank c.1) := by
  apply List.pairwise_of_forall_mem_list
  intro a ha c hc
  rw [mem_seg ha, mem_seg hc]

theorem seg_cross {t1 t2 : QueryType} (h : rank t1 ≤ rank t2) {b1 b2 : Bucket} :
    ∀ a ∈ seg t1 b1, ∀ c ∈ seg t2 b2, rank a.1 ≤ rank c.1 := by
  intro a ha c hc
  rw [mem_seg ha, mem_seg hc]
  exact h

theorem filter_seg_ne (t0 t : QueryType) (h : (t0 == t) = false) (b : Bucket) (nm : String) :
    (seg t0 b).filter (fun x => x.1 == t && x.2.1 == nm) = [] := by
  rw [List.filter_eq_nil_iff]
  intro a ha
  rw [mem_seg ha]
  simp [h]

theorem seg_cons (t : QueryType) (p : String × List String) (rest : Bucket) :
    seg t (p :: rest) = p.2.map (fun q => (t, p.1, q)) ++ seg t rest := by
  simp [seg]

theorem filter_seg_eq (t : QueryType) (b : Bucket) (nm : String) :
    ((seg t b).filter (fun x => x.1 == t && x.2.1 == nm)).map (fun x => x.2.2)
      = (b.filter (fun p => p.1 == nm)).flatMap (fun p => p.2) := by
  induction b with
  | nil => rfl
  | cons p rest ih =>
    have hcomp : ((fun x : QueryType × String × String => x.1 == t && x.2.1 == nm)
        ∘ (fun q => (t, p.1, q))) = (fun _ => (p.1 == nm)) := by
      funext q
      simp
    have hid : ((fun x : QueryType × String × String => x.2.2)
        ∘ (fun q => (t, p.1, q))) = id := by
      funext q
      rfl
    rw [seg_cons, List.filter_append, List.filter_map, hcomp]
    cases hp : p.1 == nm with
    | true =>
      rw [List.filter_true, List.map_append, List.map_map, hid, List.map_id,
        show List.filter (fun pr : String × List String => pr.1 == nm) (p :: rest)
            = p :: List.filter (fun pr : String × List String => pr.1 == nm) rest from
          List.filter_cons_of_pos hp,
        List.flatMap_cons]
      exact congrArg (fun l => p.2 ++ l) ih
    | false =>
      rw [List.filter_cons_of_neg (by simp [hp]), List.filter_false, List.map_nil,
        List.nil_append]
      exact ih

theorem lookup_entryPush (b : Bucket) (nm : String) (q : String) :
    List.lookup nm (entryPush b nm q) = (List.lookup nm b).map (fun l => l ++ [q]) := by
  induction b with
  | nil => rfl
  | cons p rest ih =>
    obtain ⟨k, v⟩ := p
    by_cases hk : k = nm
    · subst hk
      simp [entryPush, List.lookup_cons, ih]
    · have hk2 : (nm == k) = false := by
        simp [Ne.symm hk]
      simp only [entryPush] at ih ⊢
      simpa [List.lookup_cons, hk, hk2] using ih

theorem rank_le_four (t : QueryType) : rank t ≤ 4 := by
  cases t <;> decide

theorem tagged_pairwise (s : Script) :
    (taggedAlterStatements s).Pairwise (fun a c => rank a.1 ≤ rank c.1) := by
  rw [tagged_eq]
  refine List.pairwise_append.mpr ⟨?_, seg_pairwise _ _, ?_⟩
  · refine List.pairwise_append.mpr ⟨?_, seg_pairwise _ _, ?_⟩
    · refine List.pairwise_append.mpr ⟨?_, seg_pairwise _ _, ?_⟩
      · refine List.pairwise_append.mpr ⟨seg_pairwise _ _, seg_pairwise _ _, ?_⟩
        intro a ha c hc
        rw [mem_seg ha, mem_seg hc]
        decide
      · intro a ha c hc
        rcases List.mem_append.mp ha with h1 | h1
        · rw [mem_seg h1, mem_seg hc]
          decide
        · rw [mem_seg h1, mem_seg hc]
          decide
    · intro a ha c hc
      rcases List.mem_append.mp ha with h1 | h1
      · rcases List.mem_append.mp h1 with h2 | h2
        · rw [mem_seg h2, mem_seg hc]
          decide
        · rw [mem_seg h2, mem_seg hc]
          decide
      · rw [mem_seg h1, mem_seg hc]
        decide
  · intro a ha c hc
    rcases List.mem_append.mp ha with h1 | h1
    · rcases List.mem_append.mp h1 with h2 | h2
      · rcases List.mem_append.mp h2 with h3 | h3
        · rw [mem_seg h3, mem_seg hc]
          decide
        · rw [mem_seg h3, mem_seg hc]
          decide
      · rw [mem_seg h2, mem_seg hc]
        decide
    · rw [mem_seg h1, mem_seg hc]
      decide

theorem all_eq_tagged_map (s : Script) :
    allAlterStatements s = (taggedAlterStatements s).map (fun x => x.2.2) := by
  simp only [allAlterStatements, taggedAlterStatements, List.map_flatMap, List.map_map]
  congr 1
  funext t
  congr 1
  funext p
  have : ((fun x : QueryType × String × String => x.2.2) ∘ (fun q => (t, p.1, q))) = id := by
    funext q
    rfl
  rw [this, List.map_id]

/-- Claim C1: for every script state — hence for every set of defined tables
in any definition order — the statement sequence executed by
`sync({alter:true})` is bucket-rank monotone: every `drop_constraint`
statement precedes every `drop` statement, every `drop` precedes every
`schema`, every `schema` precedes every `create`, and every `create` precedes
every `alter`, across all schema names; within one (class, schema) bucket the
statements appear exactly in registration order, and `push` registers by
appending at the end of its bucket. -/
theorem sync_alter_ordering (s : Script) (t : QueryType) (nm : String) (q : String)
    (l : List String) :
    (allAlterStatements s = (taggedAlterStatements s).map (fun x => x.2.2))
    ∧ ((taggedAlterStatements s).Pairwise (fun a c => rank a.1 ≤ rank c.1))
    ∧ (((taggedAlterStatements s).filter (fun x => x.1 == t && x.2.1 == nm)).map
          (fun x => x.2.2)
        = ((s.folderGet t).filter (fun p => p.1 == nm)).flatMap (fun p => p.2))
    ∧ (List.lookup s.current (s.folderGet t) = some l →
        List.lookup s.current ((s.push t q).folderGet t) = some (l ++ [q])) := by
  refine ⟨all_eq_tagged_map s, tagged_pairwise s, ?_, ?_⟩
  · rw [tagged_eq]
    cases t with
    | drop_constraint =>
      rw [List.filter_append, List.filter_append, List.filter_append, List.filter_append,
        filter_seg_ne QueryType.drop QueryType.drop_constraint (by decide) s.drop nm,
        filter_seg_ne QueryType.schema QueryType.drop_constraint (by decide) s.schema nm,
        filter_seg_ne QueryType.create QueryType.drop_constraint (by decide) s.create nm,
        filter_seg_ne QueryType.alter QueryType.drop_constraint (by decide) s.alter nm]
      simp only [List.append_nil]
      exact filter_seg_eq QueryType.drop_constraint s.drop_constraint nm
    | drop =>
      rw [List.filter_append, List.filter_append, List.filter_append, List.filter_append,
        filter_seg_ne QueryType.drop_constraint QueryType.drop (by decide) s.drop_constraint nm,
        filter_seg_ne QueryType.schema QueryType.drop (by decide) s.schema nm,
        filter_seg_ne QueryType.create QueryType.drop (by decide) s.create nm,
        filter_seg_ne QueryType.alter QueryType.drop (by decide) s.alter nm]
      simp only [List.append_nil, List.nil_append]
      exact filter_seg_eq QueryType.drop s.drop nm
    | schema =>
      rw [List.filter_append, List.filter_append, List.filter_append, List.filter_append,
        filter_seg_ne QueryType.drop_constraint QueryType.schema (by decide) s.drop_constraint nm,
        filter_seg_ne QueryType.drop QueryType.schema (by decide) s.drop nm,
        filter_seg_ne QueryType.create QueryType.schema (by decide) s.create nm,
        filter_seg_ne QueryType.alter QueryType.schema (by decide) s.alter nm]
      simp only [List.append_nil, List.nil_append]
      exact filter_seg_eq QueryType.schema s.schema nm
    | create =>
      rw [List.filter_append, List.filter_append, List.filter_append, List.filter_append,
        filter_seg_ne QueryType.drop_constraint QueryType.create (by decide) s.drop_constraint nm,
        filter_seg_ne QueryType.drop QueryType.create (by decide) s.drop nm,
        filter_seg_ne QueryType.schema QueryType.create (by decide) s.schema nm,
        filter_seg_ne QueryType.alter QueryType.create (by decide) s.alter nm]
      simp only [List.append_nil, List.nil_append]
      exact filter_seg_eq QueryType.create s.create nm
    | alter =>
      rw [List.filter_append, List.filter_append, List.filter_append, List.filter_append,
        filter_seg_ne QueryType.drop_constraint QueryType.alter (by decide) s.drop_constraint nm,
        filter_seg_ne QueryType.drop QueryType.alter (by decide) s.drop nm,
        filter_seg_ne QueryType.schema QueryType.alter (by decide) s.schema nm,
        filter_seg_ne QueryType.create QueryType.alter (by decide) s.create nm]
      simp only [List.append_nil, List.nil_append]
      exact filter_seg_eq QueryType.alter s.alter nm
  · intro h
    cases t with
    | create =>
      simp only [Script.push, Script.folderGet] at h ⊢
      rw [lookup_entryPush, h]
      rfl
    | drop =>
      simp only [Script.push, Script.folderGet] at h ⊢
      rw [lookup_entryPush, h]
      rfl
    | drop_constraint =>
      simp only [Script.push, Script.folderGet] at h ⊢
      rw [lookup_entryPush, h]
      rfl
    | schema =>
      simp only [Script.push, Script.folderGet] at h ⊢
      rw [lookup_entryPush, h]
      rfl
    | alter =>
      simp only [Script.push, Script.folderGet] at h ⊢
      rw [lookup_entryPush, h]
      rfl

/-- Witness for `sync_alter_ordering` on a concrete one-table script. -/
theorem sync_alter_ordering_witness :
    List.lookup (Script.empty.setSchema "public").current
        (((Script.empty.setSchema "public").push QueryType.drop
            "DROP TABLE IF EXISTS public.users;").folderGet QueryType.drop)
      = some ["DROP TABLE IF EXISTS public.users;"] :=
  (sync_alter_ordering (Script.empty.setSchema "public") QueryType.drop "public"
      "DROP TABLE IF EXISTS public.users;" []).2.2.2 (by decide)

/-- Ordered observable events of the `sync({alter:true})` bucket loop. -/
inductive SyncEv where
  | exec (q : String) (ok : Bool)
  | onSuccess
  | commit
deriving DecidableEq

/-- The `sync({alter:true})` loop from statement index `i` on: each statement
is executed through the pool with the sync transaction; the first Failure
makes the function return at once, and only after every statement succeeded
are the success callback and `transaction.commit()` reached, in that order.
`outcome j` is whether the `j`-th executed statement succeeds. -/
def runSyncFrom (outcome : Nat → Bool) : List String → Nat → List SyncEv
  | [], _ => [SyncEv.onSuccess, SyncEv.commit]
  | q :: rest, i =>
    if outcome i then SyncEv.exec q true :: runSyncFrom outcome rest (i + 1)
    else [SyncEv.exec q false]

/-- The event trace of `sync({alter:true})` over the statement sequence of
the script. -/
def syncAlterEvents (s : Script) (outcome : Nat → Bool) : List SyncEv :=
  runSyncFrom outcome (allAlterStatements s) 0

theorem runSyncFrom_all_ok (outcome : Nat → Bool) :
    ∀ (stmts : List String) (i : Nat), (∀ j, j < stmts.length → outcome (i + j) = true) →
      runSyncFrom outcome stmts i =
        stmts.map (fun q => SyncEv.exec q true) ++ [SyncEv.onSuccess, SyncEv.commit] := by
  intro stmts
  induction stmts with
  | nil => intro i _; rfl
  | cons q rest ih =>
    intro i hall
    have h0 : outcome i = true := by
      have := hall 0 (by simp)
      simpa using this
    have hrest : ∀ j, j < rest.length → outcome (i + 1 + j) = true := by
      intro j hj
      have := hall (j + 1) (by simpa using Nat.succ_lt_succ hj)
      have harith : i + (j + 1) = i + 1 + j := by omega
      rw [harith] at this
      exact this
    simp [runSyncFrom, h0, ih (i + 1) hrest]

theorem runSyncFrom_first_fail (outcome : Nat → Bool) :
    ∀ (stmts : List String) (i k : Nat), (∀ j, j < k → outcome (i + j) = true) →
      outcome (i + k) = false → k < stmts.length →
      runSyncFrom outcome stmts i =
        (stmts.take k).map (fun q => SyncEv.exec q true)
          ++ [SyncEv.exec (stmts.getD k "") false] := by
  intro stmts
  induction stmts with
  | nil =>
    intro i k _ _ hk
    simp at hk
  | cons q rest ih =>
    intro i k hpre hfail hk
    cases k with
    | zero =>
      have h0 : outcome i = false := by simpa using hfail
      simp [runSyncFrom, h0]
    | succ m =>
      have h0 : outcome i = true := by
        have := hpre 0 (by omega)
        simpa using this
      have hpre2 : ∀ j, j < m → outcome (i + 1 + j) = true := by
        intro j hj
        have := hpre (j + 1) (by omega)
        have harith : i + (j + 1) = i + 1 + j := by omega
        rw [harith] at this
        exact this
      have hfail2 : outcome (i + 1 + m) = false := by
        have harith : i + (m + 1) = i + 1 + m := by omega
        rw [harith] at hfail
        exact hfail
      have hk2 : m < rest.length := by simpa using hk
      simp [runSyncFrom, h0, ih (i + 1) m hpre2 hfail2 hk2]

/-- Claim C6: during `sync({alter:true})`, the first statement whose result
is a Failure ends the run immediately — the trace is the successful prefix
followed by the failing statement, with no further statement, no
`onSuccessAlter` call and no `commit`; when every statement succeeds the
trace executes all statements and then contains `onSuccessAlter` followed by
`transaction.commit()`, in that order. -/
theorem sync_abort_on_failure (s : Script) (outcome : Nat → Bool) (k : Nat) :
    ((∀ j, j < k → outcome j = true) → outcome k = false →
      k < (allAlterStatements s).length →
      (syncAlterEvents s outcome =
          ((allAlterStatements s).take k).map (fun q => SyncEv.exec q true)
            ++ [SyncEv.exec ((allAlterStatements s).getD k "") false])
        ∧ SyncEv.onSuccess ∉ syncAlterEvents s outcome
        ∧ SyncEv.commit ∉ syncAlterEvents s outcome)
    ∧ ((∀ j, j < (allAlterStatements s).length → outcome j = true) →
        syncAlterEvents s outcome =
          (allAlterStatements s).map (fun q => SyncEv.exec q true)
            ++ [SyncEv.onSuccess, SyncEv.commit]) := by
  constructor
  · intro hpre hfail hk
    have heq := runSyncFrom_first_fail outcome (allAlterStatements s) 0 k
      (by intro j hj; simpa using hpre j hj) (by simpa using hfail) hk
    refine ⟨heq, ?_, ?_⟩
    · rw [syncAlterEvents, heq]
      intro hmem
      rcases List.mem_append.mp hmem with h | h
      · rcases List.mem_map.mp h with ⟨_, _, habs⟩
        exact SyncEv.noConfusion habs
      · rcases List.mem_singleton.mp h with habs
        exact SyncEv.noConfusion habs
    · rw [syncAlterEvents, heq]
      intro hmem
      rcases List.mem_append.mp hmem with h | h
      · rcases List.mem_map.mp h with ⟨_, _, habs⟩
        exact SyncEv.noConfusion habs
      · rcases List.mem_singleton.mp h with habs
        exact SyncEv.noConfusion habs
  · intro hall
    exact runSyncFrom_all_ok outcome (allAlterStatements s) 0
      (by intro j hj; simpa using hall j hj)

/-- Witness for `sync_abort_on_failure`: a one-statement script run once
under an always-failing driver and once under an always-succeeding one. -/
theorem sync_abort_on_failure_witness :
    (syncAlterEvents (Script.empty.setSchema "s") (fun _ => false) =
        ((allAlterStatements (Script.empty.setSchema "s")).take 0).map
            (fun q => SyncEv.exec q true)
          ++ [SyncEv.exec ((allAlterStatements (Script.empty.setSchema "s")).getD 0 "") false])
    ∧ (syncAlterEvents (Script.empty.setSchema "s") (fun _ => true) =
        (allAlterStatements (Script.empty.setSchema "s")).map (fun q => SyncEv.exec q true)
          ++ [SyncEv.onSuccess, SyncEv.commit]) := by
  constructor
  · exact ((sync_abort_on_failure (Script.empty.setSchema "s") (fun _ => false) 0).1
      (by intro j hj; omega) rfl (by decide)).1
  · exact (sync_abort_on_failure (Script.empty.setSchema "s") (fun _ => true) 0).2
      (by intro j hj; rfl)

/-- The single-quote character used for SQL string defaults. -/
def quoteStr : String := String.singleton (Char.ofNat 39)

/-- Rendering of a column default value: booleans as `TRUE`/`FALSE`, strings
single-quoted, anything else interpolated bare. -/
def defaultSql : Value → String
  | Value.vbool b => if b then " TRUE" else " FALSE"
  | Value.vstr v => " " ++ quoteStr ++ v ++ quoteStr
  | Value.vnum n => " " ++ toString n
  | Value.vnull => " null"

/-- Column options of `define`: a type name plus the optional flags, all
defaulted inside `define`. -/
structure ColumnOptions where
  type : String
  allowNull : Option Bool
  defaultValue : Option Value
  primaryKey : Option Bool
  unique : Option Bool

/-- One column clause of the generated `CREATE TABLE` statement. -/
def columnSql (key : String) (val : ColumnOptions) : String :=
  let allowNull := val.allowNull.getD false
  let primaryKey := val.primaryKey.getD false
  let uniq := val.unique.getD false
  let q := key ++ " " ++ val.type
  let q := q ++ (if primaryKey then "" else (if allowNull then "" else " NOT NULL"))
  let q := q ++ (if primaryKey then " PRIMARY KEY" else "")
  let q := q ++ (if primaryKey then "" else (if uniq then " UNIQUE" else ""))
  match val.defaultValue with
  | none => q
  | some v => if v = Value.vstr "" then q else q ++ " DEFAULT" ++ defaultSql v

/-- The primary-key column recorded by the `define` loop (the last column
flagged `primaryKey` wins). -/
def pkColumnOf (cols : List (String × ColumnOptions)) : Option String :=
  cols.foldl (fun acc p => if p.2.primaryKey.getD false then some p.1 else acc) none

/-- The script-visible outcome of `Db.define`. -/
structure DefineResult where
  script : Script
  syncScripts : List String
  tableName : String
  schemaName : String
  pkColumn : Option String

/-- `Db.define(tableName, definitionBody, options)`: registers the schema,
the drop and create statements, and the post-sync verification `SELECT`, and
records the table metadata the returned Model closes over. -/
def defineTable (s : Script) (sync : List String) (tableName : String)
    (cols : List (String × ColumnOptions)) (schemaOpt : Option String) : DefineResult :=
  let schemaName := schemaOpt.getD "public"
  let s1 := s.setSchema schemaName
  let subquery := cols.map (fun p => columnSql p.1 p.2)
  let columns := cols.map Prod.fst
  let s2 := s1.push QueryType.drop
    ("DROP TABLE IF EXISTS " ++ schemaName ++ "." ++ tableName ++ ";")
  let s3 := s2.push QueryType.create
    ("CREATE TABLE IF NOT EXISTS " ++ schemaName ++ "." ++ tableName ++ " ("
      ++ String.intercalate ", " subquery ++ ");")
  { script := s3,
    syncScripts := sync ++ ["SELECT " ++ String.intercalate ", " columns ++ " FROM "
      ++ schemaName ++ "." ++ tableName ++ ";"],
    tableName := tableName, schemaName := schemaName, pkColumn := pkColumnOf cols }

/-- `Model.setForeignKey(model, foreignKey, options)`: registers the
constraint drop in `drop_constraint` and the `ADD CONSTRAINT` in `alter`,
both under the current schema of the script. -/
def setForeignKeyOp (s : Script) (schemaName tableName targetSchema targetTable : String)
    (foreignKey : String) (constraintNameOpt refKeyOpt : Option String) : Script :=
  let cn := constraintNameOpt.getD (tableName ++ "_" ++ targetTable)
  let rk := refKeyOpt.getD foreignKey
  let s1 := s.push QueryType.drop_constraint
    ("ALTER TABLE IF EXISTS " ++ schemaName ++ "." ++ tableName
      ++ " DROP CONSTRAINT IF EXISTS fk_" ++ cn ++ ";")
  s1.push QueryType.alter
    ("ALTER TABLE IF EXISTS " ++ schemaName ++ "." ++ tableName
      ++ " ADD CONSTRAINT fk_" ++ cn ++ " FOREIGN KEY (" ++ foreignKey ++ ") REFERENCES "
      ++ targetSchema ++ "." ++ targetTable ++ " (" ++ rk
      ++ ") ON DELETE CASCADE ON UPDATE CASCADE;")

/-- The uniform Model-tier error handler: runs the operation body, catches
any escalated error, logs it and converts it to the absence value `null`. -/
def modelHandler {α : Type} (x : Except String α) : Option α :=
  match x with
  | Except.ok a => some a
  | Except.error _ => none

/-- Observable effect of one basic Model operation: the SQL text, the bound
values and the caller-visible result (`none` models `null`). -/
structure OpCall (α : Type) where
  query : String
  boundValues : List Value
  result : Option α

/-- `model.create(body, options)` against an explicit driver response.  On a
Failure response the body escalates and the handler returns `null`; on
success it returns `rows[0]`. -/
def createOp (schemaName tableName : String) (body : Obj) (resp : DbResp) :
    OpCall (Option Obj) :=
  let keys := body.map Prod.fst
  let vals := body.map Prod.snd
  let ph : Placeholder := ⟨0⟩
  let g := ph.generate (GenParam.count vals.length) ", "
  { query := "INSERT INTO " ++ schemaName ++ "." ++ tableName ++ " ("
      ++ String.intercalate ", " keys ++ ") VALUES (" ++ g.1 ++ ") RETURNING *;",
    boundValues := vals,
    result := modelHandler
      (if isSuccess resp then Except.ok resp.rows.head?
       else Except.error ("Failed to create data. " ++ resp.message.getD "")) }

/-- `model.find(options)`: returns all matching rows, or `null` on a Failure
response. -/
def findOp (schemaName tableName : String) (whereOpt : Option Obj) (resp : DbResp) :
    OpCall (List Obj) :=
  let ph : Placeholder := ⟨0⟩
  let whereStr := match whereOpt with
    | some w => " WHERE " ++ (ph.generate (GenParam.fields w) " AND ").1
    | none => ""
  { query := "SELECT * FROM " ++ schemaName ++ "." ++ tableName ++ whereStr ++ ";",
    boundValues := phValues [whereOpt],
    result := modelHandler
      (if isSuccess resp then Except.ok resp.rows
       else Except.error ("Failed to find data. " ++ resp.message.getD "")) }

/-- `model.update(bodyToUpdate, options)`: returns the updated rows, or
`null` on a Failure response. -/
def updateOp (schemaName tableName : String) (bodyToUpdate : Obj) (whereOpt : Option Obj)
    (resp : DbResp) : OpCall (List Obj) :=
  let ph : Placeholder := ⟨0⟩
  let g1 := ph.generate (GenParam.fields bodyToUpdate) ", "
  let whereStr := match whereOpt with
    | some w => " WHERE " ++ (g1.2.generate (GenParam.fields w) " AND ").1
    | none => ""
  { query := "UPDATE " ++ schemaName ++ "." ++ tableName ++ " SET " ++ g1.1 ++ whereStr
      ++ " RETURNING *;",
    boundValues := phValues [some bodyToUpdate, whereOpt],
    result := modelHandler
      (if isSuccess resp then Except.ok resp.rows
       else Except.error ("Failed to update data. " ++ resp.message.getD "")) }

/-- `model.delete(options)`: returns the deleted rows, or `null` on a Failure
response. -/
def deleteOp (schemaName tableName : String) (whereOpt : Option Obj) (resp : DbResp) :
    OpCall (List Obj) :=
  let ph : Placeholder := ⟨0⟩
  let whereStr := match whereOpt with
    | some w => " WHERE " ++ (ph.generate (GenParam.fields w) " AND ").1
    | none => ""
  { query := "DELETE FROM " ++ schemaName ++ "." ++ tableName ++ whereStr ++ " RETURNING *;",
    boundValues := phValues [whereOpt],
    result := modelHandler
      (if isSuccess resp then Except.ok resp.rows
       else Except.error ("Failed to delete data. " ++ resp.message.getD "")) }

/-- JavaScript property assignment `obj[k] = v` on an insertion-ordered
object: updates the value in place when the key exists, appends the entry at
the end otherwise. -/
def setKey (obj : Obj) (k : String) (v : Value) : Obj :=
  if obj.any (fun e => e.1 == k) then obj.map (fun e => if e.1 == k then (e.1, v) else e)
  else obj ++ [(k, v)]

/-- Observable effect of one by-pk Model operation: the SQL and bound values
when the query was built (`none` when the missing-primary-key precondition
aborted first), the caller-visible result, and the state of the caller-owned
`options.where` object after the call (the source mutates it in place). -/
structure PkOpCall where
  sql : Option (String × List Value)
  result : Option Obj
  whereAfter : Option Obj

/-- `model.findByPk(pk, options)`: escalates when the table has no declared
primary key; otherwise assigns `where[pkColumn] = pk` on the caller-owned
`where` object (defaulting to a fresh one), builds and runs the `SELECT`,
escalates on a Failure response or when zero rows matched, and returns
`rows[0]` otherwise. -/
def findByPkOp (schemaName tableName : String) (pkCol : Option String) (pk : Value)
    (whereOpt : Option Obj) (resp : DbResp) : PkOpCall :=
  match pkCol with
  | none => { sql := none, result := none, whereAfter := whereOpt }
  | some p =>
    let w := setKey (whereOpt.getD []) p pk
    let ph : Placeholder := ⟨0⟩
    let whereStr := " WHERE " ++ (ph.generate (GenParam.fields w) " AND ").1
    { sql := some ("SELECT * FROM " ++ schemaName ++ "." ++ tableName ++ whereStr ++ ";",
        phValues [some w]),
      result := modelHandler
        (if isSuccess resp then
          match resp.rows with
          | [] => Except.error "Failed to find data by pk. No data found"
          | r :: _ => Except.ok r
         else Except.error ("Failed to find data by pk. " ++ resp.message.getD "")),
      whereAfter := whereOpt.map (fun ww => setKey ww p pk) }

/-- `model.updateByPk(pk, bodyToUpdate, options)`: as `findByPkOp` but with a
`SET` clause built first on the shared placeholder instance. -/
def updateByPkOp (schemaName tableName : String) (pkCol : Option String) (pk : Value)
    (bodyToUpdate : Obj) (whereOpt : Option Obj) (resp : DbResp) : PkOpCall :=
  match pkCol with
  | none => { sql := none, result := none, whereAfter := whereOpt }
  | some p =>
    let w := setKey (whereOpt.getD []) p pk
    let ph : Placeholder := ⟨0⟩
    let g1 := ph.generate (GenParam.fields bodyToUpdate) ", "
    let whereStr := " WHERE " ++ (g1.2.generate (GenParam.fields w) " AND ").1
    { sql := some ("UPDATE " ++ schemaName ++ "." ++ tableName ++ " SET " ++ g1.1
        ++ whereStr ++ " RETURNING *;", phValues [some bodyToUpdate, some w]),
      result := modelHandler
        (if isSuccess resp then
          match resp.rows with
          | [] => Except.error "Failed to update data by pk. No data found"
          | r :: _ => Except.ok r
         else Except.error ("Failed to update data by pk. " ++ resp.message.getD "")),
      whereAfter := whereOpt.map (fun ww => setKey ww p pk) }

/-- `model.deleteByPk(pk, options)`: as `findByPkOp` with a `DELETE`. -/
def deleteByPkOp (schemaName tableName : String) (pkCol : Option String) (pk : Value)
    (whereOpt : Option Obj) (resp : DbResp) : PkOpCall :=
  match pkCol with
  | none => { sql := none, result := none, whereAfter := whereOpt }
  | some p =>
    let w := setKey (whereOpt.getD []) p pk
    let ph : Placeholder := ⟨0⟩
    let whereStr := " WHERE " ++ (ph.generate (GenParam.fields w) " AND ").1
    { sql := some ("DELETE FROM " ++ schemaName ++ "." ++ tableName ++ whereStr
        ++ " RETURNING *;", phValues [some w]),
      result := modelHandler
        (if isSuccess resp then
          match resp.rows with
          | [] => Except.error "Failed to delete data by pk. No data found"
          | r :: _ => Except.ok r
         else Except.error ("Failed to delete data by pk. " ++ resp.message.getD "")),
      whereAfter := whereOpt.map (fun ww => setKey ww p pk) }

/-- Claim C9: no Model operation lets an error escape — every operation
result is characterised as `null` (`none`) exactly when the driver returned
a Failure or a precondition was violated (missing primary key, or zero
matched rows for a by-pk operation), and as the row(s) on success: `create`
and the by-pk operations yield a single row, `find`/`update`/`delete` an
array. -/
theorem model_ops_error_policy (schemaName tableName : String) (body : Obj)
    (whereOpt : Option Obj) (pkCol : Option String) (pk : Value) (resp : DbResp) :
    ((createOp schemaName tableName body resp).result = none ↔ isSuccess resp = false)
    ∧ (isSuccess resp = true →
        (createOp schemaName tableName body resp).result = some resp.rows.head?)
    ∧ ((findOp schemaName tableName whereOpt resp).result = none ↔ isSuccess resp = false)
    ∧ (isSuccess resp = true →
        (findOp schemaName tableName whereOpt resp).result = some resp.rows)
    ∧ ((updateOp schemaName tableName body whereOpt resp).result = none
        ↔ isSuccess resp = false)
    ∧ (isSuccess resp = true →
        (updateOp schemaName tableName body whereOpt resp).result = some resp.rows)
    ∧ ((deleteOp schemaName tableName whereOpt resp).result = none ↔ isSuccess resp = false)
    ∧ (isSuccess resp = true →
        (deleteOp schemaName tableName whereOpt resp).result = some resp.rows)
    ∧ ((findByPkOp schemaName tableName pkCol pk whereOpt resp).result = none
        ↔ (pkCol = none ∨ isSuccess resp = false ∨ resp.rows = []))
    ∧ (∀ p r rest, pkCol = some p → resp.rows = r :: rest → isSuccess resp = true →
        (findByPkOp schemaName tableName pkCol pk whereOpt resp).result = some r)
    ∧ ((updateByPkOp schemaName tableName pkCol pk body whereOpt resp).result = none
        ↔ (pkCol = none ∨ isSuccess resp = false ∨ resp.rows = []))
    ∧ (∀ p r rest, pkCol = some p → resp.rows = r :: rest → isSuccess resp = true →
        (updateByPkOp schemaName tableName pkCol pk body whereOpt resp).result = some r)
    ∧ ((deleteByPkOp schemaName tableName pkCol pk whereOpt resp).result = none
        ↔ (pkCol = none ∨ isSuccess resp = false ∨ resp.rows = []))
    ∧ (∀ p r rest, pkCol = some p → resp.rows = r :: rest → isSuccess resp = true →
        (deleteByPkOp schemaName tableName pkCol pk whereOpt resp).result = some r) := by
  refine ⟨?_, ?_, ?_, ?_, ?_, ?_, ?_, ?_, ?_, ?_, ?_, ?_, ?_, ?_⟩
  · cases h : isSuccess resp <;> simp [createOp, modelHandler, h]
  · intro h
    simp [createOp, modelHandler, h]
  · cases h : isSuccess resp <;> simp [findOp, modelHandler, h]
  · intro h
    simp [findOp, modelHandler, h]
  · cases h : isSuccess resp <;> simp [updateOp, modelHandler, h]
  · intro h
    simp [updateOp, modelHandler, h]
  · cases h : isSuccess resp <;> simp [deleteOp, modelHandler, h]
  · intro h
    simp [deleteOp, modelHandler, h]
  · cases pkCol with
    | none => simp [findByPkOp]
    | some p =>
      cases h : isSuccess resp with
      | false => simp [findByPkOp, modelHandler, h]
      | true => cases hr : resp.rows <;> simp [findByPkOp, modelHandler, h, hr]
  · intro p r rest hpk hrows hsucc
    subst hpk
    simp [findByPkOp, modelHandler, hsucc, hrows]
  · cases pkCol with
    | none => simp [updateByPkOp]
    | some p =>
      cases h : isSuccess resp with
      | false => simp [updateByPkOp, modelHandler, h]
      | true => cases hr : resp.rows <;> simp [updateByPkOp, modelHandler, h, hr]
  · intro p r rest hpk hrows hsucc
    subst hpk
    simp [updateByPkOp, modelHandler, hsucc, hrows]
  · cases pkCol with
    | none => simp [deleteByPkOp]
    | some p =>
      cases h : isSuccess resp with
      | false => simp [deleteByPkOp, modelHandler, h]
      | true => cases hr : resp.rows <;> simp [deleteByPkOp, modelHandler, h, hr]
  · intro p r rest hpk hrows hsucc
    subst hpk
    simp [deleteByPkOp, modelHandler, hsucc, hrows]

/-- Witness for `model_ops_error_policy` at a concrete successful response
carrying one row. -/
theorem model_ops_error_policy_witness :
    ((createOp "public" "users" [("x", Value.vnum 1)]
        (successResp [[("id", Value.vnum 1)]] 1)).result = some (some [("id", Value.vnum 1)]))
    ∧ ((findOp "public" "users" none
        (successResp [[("id", Value.vnum 1)]] 1)).result = some [[("id", Value.vnum 1)]])
    ∧ ((updateOp "public" "users" [("x", Value.vnum 1)] none
        (successResp [[("id", Value.vnum 1)]] 1)).result = some [[("id", Value.vnum 1)]])
    ∧ ((deleteOp "public" "users" none
        (successResp [[("id", Value.vnum 1)]] 1)).result = some [[("id", Value.vnum 1)]])
    ∧ ((findByPkOp "public" "users" (some "id") (Value.vnum 1) none
        (successResp [[("id", Value.vnum 1)]] 1)).result = some [("id", Value.vnum 1)])
    ∧ ((updateByPkOp "public" "users" (some "id") (Value.vnum 1) [("x", Value.vnum 1)] none
        (successResp [[("id", Value.vnum 1)]] 1)).result = some [("id", Value.vnum 1)])
    ∧ ((deleteByPkOp "public" "users" (some "id") (Value.vnum 1) none
        (successResp [[("id", Value.vnum 1)]] 1)).result = some [("id", Value.vnum 1)]) := by
  have h := model_ops_error_policy "public" "users" [("x", Value.vnum 1)] none (some "id")
    (Value.vnum 1) (successResp [[("id", Value.vnum 1)]] 1)
  refine ⟨h.2.1 (by decide), h.2.2.2.1 (by decide), h.2.2.2.2.2.1 (by decide),
    h.2.2.2.2.2.2.2.1 (by decide),
    h.2.2.2.2.2.2.2.2.2.1 "id" [("id", Value.vnum 1)] [] rfl rfl (by decide),
    h.2.2.2.2.2.2.2.2.2.2.2.1 "id" [("id", Value.vnum 1)] [] rfl rfl (by decide),
    h.2.2.2.2.2.2.2.2.2.2.2.2.2 "id" [("id", Value.vnum 1)] [] rfl rfl (by decide)⟩

theorem lookup_append_absent (p : String) (pk : Value) :
    ∀ (l : Obj), (∀ e ∈ l, (e.1 == p) = false) →
      List.lookup p (l ++ [(p, pk)]) = some pk := by
  intro l
  induction l with
  | nil => simp [List.lookup_cons]
  | cons e rest ih =>
    intro hall
    have he : (e.1 == p) = false := hall e (by simp)
    have hpe : (p == e.1) = false := by
      have hne : ¬ e.1 = p := by
        intro hcontra
        rw [hcontra] at he
        simp at he
      simp [Ne.symm hne]
    obtain ⟨k, v⟩ := e
    simp only [List.cons_append, List.lookup_cons, hpe, cond_false]
    exact ih (fun x hx => hall x (by simp [hx]))

theorem lookup_map_present (p : String) (pk : Value) :
    ∀ (l : Obj), l.any (fun e => e.1 == p) = true →
      List.lookup p (l.map (fun e => if e.1 == p then (e.1, pk) else e)) = some pk := by
  intro l
  induction l with
  | nil => intro h; simp at h
  | cons e rest ih =>
    intro hany
    obtain ⟨k, v⟩ := e
    cases hk : k == p with
    | true =>
      have hk2 : p == k := by
        have : k = p := by simpa using hk
        simp [this]
      simp only [List.map_cons, hk, if_true, List.lookup_cons, hk2, cond_true]
    | false =>
      have hrest : rest.any (fun e => e.1 == p) = true := by
        rcases List.any_eq_true.mp hany with ⟨x, hx, hxp⟩
        rcases List.mem_cons.mp hx with hx0 | hx1
        · rw [hx0] at hxp
          simp only at hxp
          rw [hxp] at hk
          simp at hk
        · exact List.any_eq_true.mpr ⟨x, hx1, hxp⟩
      have hpk2 : (p == k) = false := by
        have hne : ¬ k = p := by
          intro hcontra
          rw [hcontra] at hk
          simp at hk
        simp [Ne.symm hne]
      simp only [List.map_cons, hk]
      rw [if_neg (by simp)]
      simp only [List.lookup_cons, hpk2, cond_false]
      exact ih hrest

theorem lookup_setKey (ww : Obj) (p : String) (pk : Value) :
    List.lookup p (setKey ww p pk) = some pk := by
  unfold setKey
  cases h : ww.any (fun e => e.1 == p) with
  | true =>
    rw [if_pos rfl]
    exact lookup_map_present p pk ww h
  | false =>
    rw [if_neg (by simp)]
    apply lookup_append_absent
    intro e he
    cases hc : e.1 == p with
    | true =>
      exfalso
      have hcontra : ww.any (fun e => e.1 == p) = true := List.any_eq_true.mpr ⟨e, he, hc⟩
      rw [h] at hcontra
      exact Bool.false_ne_true hcontra
    | false => rfl

/-- Counterexample to Claim C10 as stated: when the caller-owned `where` object
already maps the primary-key column to the passed pk value, the by-pk
operation leaves the caller-owned object unchanged — refuting the clause that
the object "is not left unchanged by the call". -/
theorem where_mutation_counterexample :
    (findByPkOp "public" "users" (some "id") (Value.vnum 1) (some [("id", Value.vnum 1)])
        (successResp [] 0)).whereAfter = some [("id", Value.vnum 1)] := by
  decide

/-- Claim C10 (amended): for every by-pk Model operation on a table with
primary-key column `p`, when the caller supplies an `options.where` object,
the operation mutates that same caller-owned object in place by assigning
`where[p] = pk` before building the query — the bound values are drawn from
the mutated object, and after the call the caller-owned object equals its
original contents with entry `p` set to `pk` (in particular it maps `p` to
`pk`); it therefore coincides with the original exactly in the case the
original already mapped `p` to `pk`. -/
theorem where_mutation_spec (schemaName tableName p : String) (pk : Value) (ww : Obj)
    (body : Obj) (resp : DbResp) :
    ((findByPkOp schemaName tableName (some p) pk (some ww) resp).whereAfter
        = some (setKey ww p pk))
    ∧ ((updateByPkOp schemaName tableName (some p) pk body (some ww) resp).whereAfter
        = some (setKey ww p pk))
    ∧ ((deleteByPkOp schemaName tableName (some p) pk (some ww) resp).whereAfter
        = some (setKey ww p pk))
    ∧ (List.lookup p (setKey ww p pk) = some pk)
    ∧ ((findByPkOp schemaName tableName (some p) pk (some ww) resp).sql.map Prod.snd
        = some ((setKey ww p pk).map Prod.snd)) := by
  refine ⟨rfl, rfl, rfl, lookup_setKey ww p pk, ?_⟩
  simp [findByPkOp, phValues]
